import Mathlib

/-!
Verification of the module-orchestration core of `binwalk`
(`src/binwalk/core/module.py`) via a shallow embedding in Lean 4.

Each Python routine relevant to the claims is translated into an executable
Lean definition; stateful code becomes explicit state passing, fallible code
returns `Option`/`Except`, and Python exceptions become explicit outcome
constructors.  The theorems below settle the frozen claims about the spec.
-/

namespace Binwalk

/-! ### Exceptions and lifecycle phases (`Module.__init__`, `Module.main`)

Python exceptions relevant to the lifecycle contract are either the
cancellation interrupt (`KeyboardInterrupt`) or an arbitrary other exception,
identified here by a numeric tag. -/

/-- A Python exception: either `KeyboardInterrupt` or any other exception,
identified by a tag. -/
inductive PyExc where
  | kbInterrupt : PyExc
  | err (tag : Nat) : PyExc
deriving DecidableEq, Repr

/-- Outcome of invoking one overridable hook (`load`, `init`,
`config.display.format_strings`, `run`): either a returned value or a raised
exception. -/
inductive PhaseOut (α : Type) where
  | ret (a : α) : PhaseOut α
  | raised (e : PyExc) : PhaseOut α
deriving DecidableEq, Repr

/-- Outcome of `Module.main`: a returned boolean, or an exception that
escaped `main`. -/
inductive MainOut where
  | returned (b : Bool) : MainOut
  | raised (e : PyExc) : MainOut
deriving DecidableEq, Repr

/-- Outcome of the `try: self.load() ...` block of `Module.__init__`:
construction completed, or an exception escaped the constructor. -/
inductive CtorOut where
  | made : CtorOut
  | raised (e : PyExc) : CtorOut
deriving DecidableEq, Repr

/-- The `try`/`except` block of `Module.__init__` around `self.load()`
(module.py lines 157-162): `KeyboardInterrupt` is re-raised, every other
exception is recorded by `self.error(exception=e)`, appending to
`self.errors`.  `errs` is the module's error list (each recorded error keeps
its attached exception). -/
def moduleCtor (errs : List PyExc) (loadRes : PhaseOut Unit) :
    List PyExc × CtorOut :=
  match loadRes with
  | .ret _ => (errs, .made)
  | .raised .kbInterrupt => (errs, .raised .kbInterrupt)
  | .raised (.err t) => (errs ++ [.err t], .made)

/-- Embedding of `Module.main` (module.py lines 302-338): drives `self.init()`, then
`self.config.display.format_strings(...)`, then `self.run()`.  Each of the
three `try` blocks re-raises `KeyboardInterrupt` and converts every other
exception into a recorded error followed by `return False`.  The plugin
pre/post-scan hooks are not caught specially and are modelled as non-raising
collaborator calls. -/
def moduleMain (errs : List PyExc) (initRes fmtRes : PhaseOut Unit)
    (runRes : PhaseOut Bool) : List PyExc × MainOut :=
  match initRes with
  | .raised .kbInterrupt => (errs, .raised .kbInterrupt)
  | .raised (.err t) => (errs ++ [.err t], .returned false)
  | .ret _ =>
    match fmtRes with
    | .raised .kbInterrupt => (errs, .raised .kbInterrupt)
    | .raised (.err t) => (errs ++ [.err t], .returned false)
    | .ret _ =>
      match runRes with
      | .raised .kbInterrupt => (errs, .raised .kbInterrupt)
      | .raised (.err t) => (errs ++ [.err t], .returned false)
      | .ret b => (errs, .returned b)

/-! ### Python values

Values flowing through the option/kwarg machinery.  Python floats are kept
symbolic (the textual literal), since no claim depends on float arithmetic;
opaque objects (methods, collaborator objects) are represented by a tag. -/

/-- A Python value as handled by the orchestration core. -/
inductive PyVal where
  | none : PyVal
  | bool (b : Bool) : PyVal
  | int (n : Int) : PyVal
  | str (s : String) : PyVal
  | list (xs : List PyVal) : PyVal
  | dict (m : List (Nat × PyVal)) : PyVal
  | floatLit (s : String) : PyVal
  | obj (tag : String) : PyVal

/-! ### Constructor keyword processing (`Modules.kwargs` / `process_kwargs`)

A Python object's attribute table is modelled as a function
`String → Option PyVal` (`none` = attribute absent, `hasattr` false). -/

/-- Embedding of `Kwarg` (module.py lines 47-64): a declared constructor parameter with
its default value. -/
structure PKwarg where
  name : String
  default : PyVal

/-- Model of `setattr(obj, k, v)` on an attribute table. -/
def setAttr (a : String → Option PyVal) (k : String) (v : PyVal) :
    String → Option PyVal :=
  fun s => if s = k then some v else a s

/-- Embedding of `Modules.kwargs` (module.py lines 588-610), as invoked through
`process_kwargs` from `Module.__init__`: for each `Kwarg` declared in the
module's `KWARGS`, set the attribute of that name to the supplied value if
the name is a key of the supplied kwargs, else to the declared default; then
for each supplied pair `(k, v)`, if the object has no attribute `k`
(`not hasattr(module, k)`), attach it verbatim.  `attrs` is the module's
attribute table at entry (a `Module` instance already carries `errors`,
`results`, `status`, `name`, `plugins` plus all class-level attributes and
methods at this point). -/
def modKwargs (declared : List PKwarg) (supplied : List (String × PyVal))
    (attrs : String → Option PyVal) : String → Option PyVal :=
  let a1 := declared.foldl
    (fun a kw => setAttr a kw.name ((supplied.lookup kw.name).getD kw.default)) attrs
  supplied.foldl (fun a p => if (a p.1).isSome then a else setAttr a p.1 p.2) a1

/-- Names of the attributes every `Module` instance already has when
`process_kwargs` runs: the instance attributes set by `Module.__init__`
(lines 144-148) and the class-level metadata and methods of `Module`. -/
def baseModuleAttrNames : List String :=
  ["errors", "results", "status", "name", "plugins",
   "TITLE", "CLI", "KWARGS", "DEPENDS", "HEADER_FORMAT", "RESULT_FORMAT",
   "HEADER", "RESULT",
   "load", "init", "run", "callback", "validate", "result", "error",
   "header", "footer", "main",
   "_plugins_pre_scan", "_plugins_post_scan", "_plugins_result",
   "_build_display_args"]

/-- The attribute table of a freshly constructed module instance of class
`Deflate` at the moment `process_kwargs` runs: `self.name` holds the class
name, the remaining base attributes hold opaque objects. -/
def deflateBaseAttrs : String → Option PyVal :=
  fun s =>
    if s = "name" then some (.str "Deflate")
    else if baseModuleAttrNames.contains s then some (.obj s)
    else Option.none

/-! ### Python `int(s, 0)` (automatic base detection)

`Modules.argv` parses integer-typed option values with `int(value, 0)`
("Do this manually as argparse doesn't seem to be able to handle hexadecimal
values", module.py lines 567-569).  The model follows Python's base-0
integer literal grammar: optional surrounding whitespace, optional sign,
`0x`/`0X`, `0o`/`0O`, `0b`/`0B` prefixes, single underscores between digits
(one also allowed right after a base prefix), and no leading zero on a
non-zero decimal literal. -/

/-- Value of a digit character in base `b` (`b ≤ 16` here). -/
def digitVal (b : Nat) (c : Char) : Option Nat :=
  let v : Option Nat :=
    if '0' ≤ c ∧ c ≤ '9' then some (c.toNat - '0'.toNat)
    else if 'a' ≤ c ∧ c ≤ 'f' then some (c.toNat - 'a'.toNat + 10)
    else if 'A' ≤ c ∧ c ≤ 'F' then some (c.toNat - 'A'.toNat + 10)
    else Option.none
  match v with
  | some d => if d < b then some d else Option.none
  | Option.none => Option.none

/-- Parse a run of digits in base `b` with Python's underscore rules: at
least one digit, an underscore only between digits.  `seen` records whether
a digit has been read, `lastDigit` whether the previous character was a
digit. -/
def digitsRun (b : Nat) (acc : Nat) (seen lastDigit : Bool) :
    List Char → Option Nat
  | [] => if seen && lastDigit then some acc else Option.none
  | c :: cs =>
    if c = '_' then
      if lastDigit then digitsRun b acc seen false cs else Option.none
    else
      match digitVal b c with
      | some d => digitsRun b (acc * b + d) true true cs
      | Option.none => Option.none

/-- Digit run after a base prefix: Python additionally allows a single
underscore directly after the prefix (`0x_1A`). -/
def prefixedDigits (b : Nat) (cs : List Char) : Option Nat :=
  match cs with
  | '_' :: rest => digitsRun b 0 false false rest
  | _ => digitsRun b 0 false false cs

/-- An unprefixed (decimal) literal in base 0: a leading zero is allowed
only when the value is zero. -/
def decimalDigits (cs : List Char) : Option Nat :=
  match digitsRun 10 0 false false cs with
  | some n =>
    match cs with
    | '0' :: _ => if n = 0 then some 0 else Option.none
    | _ => some n
  | Option.none => Option.none

/-- Python's `str.strip()` on a character list (whitespace on both ends). -/
def stripWs (cs : List Char) : List Char :=
  ((cs.dropWhile Char.isWhitespace).reverse.dropWhile Char.isWhitespace).reverse

/-- Python `int(s, 0)`: automatic base detection.  `Option.none` models a
raised `ValueError`. -/
def pyIntBase0 (s : String) : Option Int :=
  let cs := stripWs s.toList
  let sign : Int := match cs with | '-' :: _ => -1 | _ => 1
  let cs1 : List Char :=
    match cs with
    | '+' :: rest => rest
    | '-' :: rest => rest
    | _ => cs
  let mag : Option Nat :=
    match cs1 with
    | '0' :: 'x' :: rest => prefixedDigits 16 rest
    | '0' :: 'X' :: rest => prefixedDigits 16 rest
    | '0' :: 'o' :: rest => prefixedDigits 8 rest
    | '0' :: 'O' :: rest => prefixedDigits 8 rest
    | '0' :: 'b' :: rest => prefixedDigits 2 rest
    | '0' :: 'B' :: rest => prefixedDigits 2 rest
    | _ => decimalDigits cs1
  mag.map (fun n => sign * (n : Int))

/-! ### Command-line option merging (`Modules.argv`) -/

/-- The accepted value kind of an `Option` declaration (module.py line 36):
`None` (boolean flag), `int`, `float`, `str`, `list`, `dict`, or a
file-like type (`binwalk.core.common.BlockFile`). -/
inductive OType where
  | tNone | tInt | tFloat | tStr | tList | tDict | tBlockFile
deriving DecidableEq, Repr

/-- Embedding of `Option` (module.py lines 12-45) restricted to the fields consulted by
`Modules.argv`'s kwargs loop: the affected kwargs dictionary, the priority,
the long flag (the argparse destination; the short flag is only an alias and
the description/dtype only feed help output). -/
structure POption where
  kwargs : List (String × PyVal)
  priority : Int
  long : String
  otype : OType

/-- Lookup in an insertion-ordered Python dict. -/
def assocGet {β : Type} (d : List (String × β)) (k : String) : Option β :=
  (d.find? (fun p => p.1 == k)).map Prod.snd

/-- Assignment in an insertion-ordered Python dict: replace in place when
the key exists, else append. -/
def assocSet {β : Type} (d : List (String × β)) (k : String) (v : β) :
    List (String × β) :=
  if (d.find? (fun p => p.1 == k)).isSome then
    d.map (fun p => if p.1 == k then (k, v) else p)
  else d ++ [(k, v)]

/-- The kwargs accumulation state of one `Modules.argv` call: the kwargs
dict under construction and the `last_priority` dict. -/
structure ArgState where
  kwargs : List (String × PyVal)
  lastPrio : List (String × Int)

/-- The check `args[module_option.long] not in [None, False]` (module.py
line 557).  The parsed namespace only holds `None`, `True`/`False`
(store_true flags) or strings, so structural comparison is faithful. -/
def isFalsy : PyVal → Bool
  | .none => true
  | .bool false => true
  | _ => false

/-- One iteration of the `for module_option in module.CLI` loop of
`Modules.argv` (module.py lines 548-581).  `argsLookup` abstracts the
argparse parse result over every module's registered long flags
(`Option.none` = no such destination registered, so `has_key(args, long)`
is false); `unknown` holds the unrecognized tokens (target files).  A
`BlockFile`-typed option funnels all unknown tokens into each of its target
keys; otherwise, a supplied non-falsy value is written to each target key
subject to the `last_priority[name] <= module_option.priority` rule, with
per-kind coercion (`int(value, 0)`, `float`, dict-by-index, list-append,
verbatim).  The outer `Option` models an uncaught exception (e.g.
`ValueError` from `int`). -/
def processOption (argsLookup : String → Option PyVal) (unknown : List String)
    (stO : Option ArgState) (o : POption) : Option ArgState :=
  match stO with
  | Option.none => Option.none
  | some st =>
    if o.otype = .tBlockFile then
      some { st with kwargs := (o.kwargs.foldl
        (fun d p => assocSet d p.1 (.list (unknown.map PyVal.str))) st.kwargs) }
    else
      match argsLookup o.long with
      | Option.none => some st
      | some av =>
        if isFalsy av then some st
        else
          o.kwargs.foldl (fun acc p =>
            match acc with
            | Option.none => Option.none
            | some st =>
              let name := p.1
              let proceed : Bool :=
                match assocGet st.lastPrio name with
                | Option.none => true
                | some lp => decide (lp ≤ o.priority)
              if proceed then
                let value := if o.otype ≠ .tNone then av else p.2
                let st := { st with lastPrio := assocSet st.lastPrio name o.priority }
                match o.otype with
                | .tInt =>
                  match value with
                  | .str s => (pyIntBase0 s).map fun n =>
                      { st with kwargs := assocSet st.kwargs name (.int n) }
                  | _ => Option.none
                | .tFloat =>
                  match value with
                  | .str s => some { st with kwargs := assocSet st.kwargs name (.floatLit s) }
                  | _ => Option.none
                | .tDict =>
                  match assocGet st.kwargs name with
                  | Option.none =>
                    some { st with kwargs := assocSet st.kwargs name (.dict [(0, value)]) }
                  | some (PyVal.dict m) =>
                    some { st with kwargs := assocSet st.kwargs name (.dict (m ++ [(m.length, value)])) }
                  | some _ => Option.none
                | .tList =>
                  match assocGet st.kwargs name with
                  | Option.none =>
                    some { st with kwargs := assocSet st.kwargs name (.list [value]) }
                  | some (PyVal.list xs) =>
                    some { st with kwargs := assocSet st.kwargs name (.list (xs ++ [value])) }
                  | some _ => Option.none
                | _ => some { st with kwargs := assocSet st.kwargs name value }
              else some st) (some st)

/-- Embedding of `Modules.argv` (module.py lines 509-586) for one target module: fold the
module's own CLI options over the empty kwargs/`last_priority` dicts, then
default `enabled` to `False` when no option set it. -/
def moduleArgv (cli : List POption) (argsLookup : String → Option PyVal)
    (unknown : List String) : Option (List (String × PyVal)) :=
  (cli.foldl (processOption argsLookup unknown) (some ⟨[], []⟩)).map fun st =>
    if (assocGet st.kwargs "enabled").isSome then st.kwargs
    else st.kwargs ++ [("enabled", .bool false)]

/-! ### The result pipeline (`Module.result`) -/

/-- The scanned file attached to a result: its length, current read
position (`tell()`) and starting offset, the three attributes `Module.result`
consults for automatic progress tracking. -/
structure PFile where
  length : Nat
  tellPos : Nat
  offsetV : Nat
deriving DecidableEq, Repr

/-- Embedding of `Result` (module.py lines 66-93) restricted to its base attributes;
producer-attached extra attributes play no role in the claims settled
here. -/
structure PResult where
  offset : Int
  description : String
  rfile : Option PFile
  valid : Bool
  display : Bool
  extract : Bool
deriving DecidableEq, Repr

/-- The shared `Status` counters (module.py lines 340-351). -/
structure PStatus where
  total : Int
  completed : Int
deriving DecidableEq, Repr

/-- A value as rendered by `_build_display_args` via `getattr(r, name)`. -/
inductive AttrVal where
  | vInt (n : Int)
  | vStr (s : String)
  | vBool (b : Bool)
deriving DecidableEq, Repr

/-- Model of `getattr(r, name)` over the modelled base attributes of `Result`
(`Option.none` models an `AttributeError`). -/
def getAttrR (r : PResult) : String → Option AttrVal
  | "offset" => some (.vInt r.offset)
  | "description" => some (.vStr r.description)
  | "valid" => some (.vBool r.valid)
  | "display" => some (.vBool r.display)
  | "extract" => some (.vBool r.extract)
  | _ => Option.none

/-- Embedding of `Module._build_display_args` (module.py lines 222-234) for a module
whose `RESULT` attribute is a list of attribute names: collect
`getattr(r, name)` for each name in order; a missing attribute raises. -/
def buildDisplayArgs (names : List String) (r : PResult) : Option (List AttrVal) :=
  names.foldr
    (fun n acc =>
      match getAttrR r n, acc with
      | some v, some vs => some (v :: vs)
      | _, _ => Option.none)
    (some [])

/-- The mutable state touched by `Module.result`: the module's stored
results, the shared status counters, and the sequence of calls made to the
display collaborator (`config.display.result`). -/
structure ResState where
  results : List PResult
  status : PStatus
  displayed : List (List AttrVal)
deriving DecidableEq, Repr

/-- Embedding of `Module.result` (module.py lines 236-267): validate the result, invoke
every dependency's `callback` on it (one per `DEPENDS` entry, in order),
invoke the plugin per-result callback, then — only if the result is still
valid — append it to `self.results`, derive the status counters from the
attached file when the module is not tracking progress manually
(`status.total` still 0), and, if the result is flagged for display and the
built display-args list is non-empty, forward it to
`config.display.result`.  Callbacks mutating the `Result` object are
modelled as functions `PResult → PResult` applied in sequence; the outer
`Option` models an `AttributeError` escaping `_build_display_args`.
`statusAutoUpdate` is the automatic progress-tracking step (module.py lines
259-262): when the result has a file and the module is not tracking
progress manually, derive `total`/`completed` from the file. -/
def statusAutoUpdate (st : ResState) (r : PResult) : ResState :=
  match r.rfile with
  | some f =>
    if st.status.total = 0 then
      { st with status :=
          { total := (f.length : Int),
            completed := (f.tellPos : Int) - (f.offsetV : Int) } }
    else st
  | Option.none => st

def moduleResult (validateF : PResult → PResult)
    (depcbs : List (PResult → PResult)) (plugincb : PResult → PResult)
    (resultNames : List String) (st : ResState) (r0 : PResult) :
    Option ResState :=
  let r1 := validateF r0
  let r2 := depcbs.foldl (fun r f => f r) r1
  let r3 := plugincb r2
  if r3.valid then
    let st1 := { st with results := st.results ++ [r3] }
    let st2 := statusAutoUpdate st1 r3
    if r3.display then
      match buildDisplayArgs resultNames r3 with
      | Option.none => Option.none
      | some args =>
        some (if args.isEmpty then st2
              else { st2 with displayed := st2.displayed ++ [args] })
    else some st2
  else some st

/-- The default `Module.validate` (module.py lines 201-211): it
unconditionally sets `valid = True`. -/
def defaultValidate (r : PResult) : PResult := { r with valid := true }

/-- The default `Module.callback` (module.py lines 191-199) and a plugin
bus with no registered scan callbacks: no-ops on the result. -/
def defaultCallback (r : PResult) : PResult := r

/-- An overriding `validate` that rejects the result (modules may override
`validate` to reject results based on module-specific policy). -/
def rejectValidate (r : PResult) : PResult := { r with valid := false }

/-- An overriding dependency `callback` that marks the incoming result
valid again (callbacks may veto or annotate, i.e. mutate, the result). -/
def revalidateCallback (r : PResult) : PResult := { r with valid := true }

/-- A concrete scan finding. -/
def sampleResult : PResult :=
  { offset := 0, description := "gzip", rfile := Option.none,
    valid := true, display := true, extract := true }

/-- The module state before submitting a result. -/
def emptyResState : ResState :=
  { results := [], status := { total := 0, completed := 0 }, displayed := [] }

/-! ### The orchestrator (`Modules`): dependency resolution and execution

`Modules.run`, `Modules.load` and `Modules.dependencies` (module.py lines
462-507) recurse into each other; the recursion is modelled with an explicit
fuel parameter (the Python original guards only direct self-dependency).
Two instrumentation logs record the observable events the claims speak
about: every constructor invocation (`module(**kwargs)` in `Modules.load`)
and every `main` invocation, each by module-type id. -/

/-- A module type (class) known to the orchestrator: its identity, its name
in the `binwalk.modules` namespace, its `DEPENDS` table (constructor
parameter name → dependency module name), whether its `load` hook raises a
non-cancellation exception (leaving a recorded error on the constructed
instance), and whether the merged CLI parse sets its `enabled` kwarg. -/
structure ModType where
  id : Nat
  name : String
  depends : List (String × String)
  loadFails : Bool
  enabled : Bool
deriving DecidableEq, Repr

/-- A constructed module instance as the orchestrator observes it: its
type, whether its error list is non-empty, and its enabled flag. -/
structure Inst where
  typeId : Nat
  hasErrors : Bool
  enabled : Bool
deriving DecidableEq, Repr

/-- The orchestrator state: `self.loaded_modules` keyed by module type,
the construction log and the `main`-invocation log. -/
structure MState where
  loaded : List (Nat × Inst)
  log : List Nat
  ranMain : List Nat
deriving DecidableEq, Repr

/-- Exceptional orchestrator outcomes: `DependencyError` (module.py line
503), a `KeyError` on `loaded_modules` (unreachable in practice: `run`
always caches before returning), and fuel exhaustion (standing for the
unbounded recursion of a dependency cycle, which the source does not guard
against). -/
inductive MErr where
  | depError | keyError | fuelOut
deriving DecidableEq, Repr

/-- Model of the lookup `self.loaded_modules[i]`. -/
def lookupLoaded (s : MState) (i : Nat) : Option Inst :=
  (s.loaded.find? (fun p => p.1 == i)).map Prod.snd

/-- Model of `getattr(binwalk.modules, name)`: look a dependency type up by name in
the known-modules namespace. -/
def lookupName (env : List ModType) (n : String) : Option ModType :=
  env.find? (fun m => m.name == n)

/-- Model of the assignment `self.loaded_modules[k] = v`: replace in place or append. -/
def updateLoaded (d : List (Nat × Inst)) (k : Nat) (v : Inst) :
    List (Nat × Inst) :=
  if (d.find? (fun p => p.1 == k)).isSome then
    d.map (fun p => if p.1 == k then (k, v) else p)
  else d ++ [(k, v)]

/-- Embedding of `Modules.dependencies` (module.py lines 480-507), processing the
`DEPENDS` entries of module type `t` in order; `runner` is the `self.run`
recursion.  A dependency name missing from the namespace is warned about
and skipped; a self-dependency is skipped; an uncached dependency is first
run (which caches it); if the now-cached dependency instance carries any
recorded errors a `DependencyError` is raised (aborting the entire
resolution), otherwise the instance is bound to the constructor parameter
name.  Errors carry the orchestrator state, since Python exceptions do not
roll back mutations of `self.loaded_modules`.
`ensureLoaded` is the `if not has_key(self.loaded_modules, dependency):
self.run(dependency)` step: an already cached dependency leaves the state
untouched, an uncached one is run first. -/
def ensureLoaded
    (runner : MState → ModType → Except (MErr × MState) (MState × Inst))
    (s : MState) (dm : ModType) : Except (MErr × MState) MState :=
  if (lookupLoaded s dm.id).isSome then .ok s
  else
    match runner s dm with
    | .error e => .error e
    | .ok (s', _) => .ok s'

def depsGo (env : List ModType)
    (runner : MState → ModType → Except (MErr × MState) (MState × Inst))
    (t : ModType) :
    MState → List (String × String) →
      Except (MErr × MState) (MState × List (String × Inst))
  | s, [] => .ok (s, [])
  | s, (kw, dname) :: rest =>
    match lookupName env dname with
    | Option.none => depsGo env runner t s rest
    | some dm =>
      if dm.id = t.id then depsGo env runner t s rest
      else
        match ensureLoaded runner s dm with
        | .error e => .error e
        | .ok s1 =>
          match lookupLoaded s1 dm.id with
          | Option.none => .error (.keyError, s1)
          | some inst =>
            if inst.hasErrors then .error (.depError, s1)
            else
              match depsGo env runner t s1 rest with
              | .error e => .error e
              | .ok (s2, binds) => .ok (s2, (kw, inst) :: binds)

/-- Embedding of `Modules.load` (module.py lines 475-478): derive the constructor
kwargs — the `Modules.argv` outcome is abstracted into the
`enabled`/`loadFails` fields of the module type — and the resolved
dependency instances, then construct the module (`module(**kwargs)`);
construction appends the type id to the construction log, and
`Module.__init__` records a `load()` failure as an error on the instance
(it does not raise). -/
def loadM (env : List ModType)
    (runner : MState → ModType → Except (MErr × MState) (MState × Inst))
    (s : MState) (t : ModType) : Except (MErr × MState) (MState × Inst) :=
  match depsGo env runner t s t.depends with
  | .error e => .error e
  | .ok (s1, _binds) =>
    .ok ({ s1 with log := s1.log ++ [t.id] },
         { typeId := t.id, hasErrors := t.loadFails, enabled := t.enabled })

/-- Embedding of `Modules.run` (module.py lines 462-473): load the module — no cache
lookup happens here — then, when the result is an enabled `Module`
instance, drive it through `main` (and clear the shared status), and only
then register the instance in `loaded_modules` before returning it. -/
def runM (env : List ModType) :
    Nat → MState → ModType → Except (MErr × MState) (MState × Inst)
  | 0 => fun s _ => .error (.fuelOut, s)
  | fuel + 1 => fun s t =>
    match loadM env (runM env fuel) s t with
    | .error e => .error e
    | .ok (s1, inst) =>
      let s2 := if inst.enabled then { s1 with ranMain := s1.ranMain ++ [t.id] }
                else s1
      .ok ({ s2 with loaded := updateLoaded s2.loaded t.id inst }, inst)

/-- The `for module in self.list(): obj = self.run(module)` sweep of
`Modules.execute` (module.py lines 449-451): there is no exception handler
around `self.run`, so an exception aborts the remaining iterations. -/
def sweepM (env : List ModType) (fuel : Nat) :
    MState → List ModType → Except (MErr × MState) MState
  | s, [] => .ok s
  | s, t :: rest =>
    match runM env fuel s t with
    | .error e => .error e
    | .ok (s', _) => sweepM env fuel s' rest

/-- Embedding of `Modules.execute` (module.py lines 442-460): run every known module
type in order, then collect every cached instance whose enabled flag is
true into the returned list. -/
def executeM (env : List ModType) (fuel : Nat) (s : MState) :
    Except (MErr × MState) (MState × List Inst) :=
  match sweepM env fuel s env with
  | .error e => .error e
  | .ok s' => .ok (s', (s'.loaded.map Prod.snd).filter (fun i => i.enabled))

/-- The orchestrator state reached by a call, on the normal and on the
exceptional path alike. -/
def resState {α : Type} : Except (MErr × MState) (MState × α) → MState
  | .error (_, s) => s
  | .ok (s, _) => s

/-- The orchestrator state reached by a call returning a bare state. -/
def resStateE : Except (MErr × MState) MState → MState
  | .error (_, s) => s
  | .ok s => s

/-- The exceptional condition carried by a result, if any. -/
def errKind {α : Type} : Except (MErr × MState) (MState × α) → Option MErr
  | .error (e, _) => some e
  | .ok _ => Option.none

/-- The initial orchestrator state of one `execute` call. -/
def mInit : MState := { loaded := [], log := [], ranMain := [] }

/-- Module type `A` (id 0): depends on `B`, loads cleanly, enabled. -/
def tA : ModType :=
  { id := 0, name := "A", depends := [("b", "B")], loadFails := false,
    enabled := true }

/-- Module type `B` (id 1): no dependencies, loads cleanly, enabled. -/
def tB : ModType :=
  { id := 1, name := "B", depends := [], loadFails := false, enabled := true }

/-- A two-module environment, swept in the order `A`, `B`. -/
def envTwo : List ModType := [tA, tB]

/-- Module type `A` of the failure scenario (id 0): depends on `D`. -/
def tAD : ModType :=
  { id := 0, name := "A", depends := [("d", "D")], loadFails := false,
    enabled := true }

/-- Module type `C` (id 1): unrelated to both `A` and `D`. -/
def tC : ModType :=
  { id := 1, name := "C", depends := [], loadFails := false, enabled := true }

/-- Module type `D` (id 2): its `load` hook fails, leaving a recorded
error on its instance. -/
def tD : ModType :=
  { id := 2, name := "D", depends := [], loadFails := true, enabled := true }

/-- A three-module environment swept in the order `A`, `C`, `D`: `A`
depends on `D`, `C` is unrelated to both, and `D`'s `load` fails. -/
def envDepFail : List ModType := [tAD, tC, tD]

/-- A single dependency-free, disabled module type. -/
def tZ : ModType :=
  { id := 0, name := "Z", depends := [], loadFails := false, enabled := false }

/-- An error-free cached instance of `B`. -/
def instB : Inst := { typeId := 1, hasErrors := false, enabled := true }

/-- A cached instance of `D` carrying recorded errors. -/
def instD : Inst := { typeId := 2, hasErrors := true, enabled := true }

/-- An instance of `Z`. -/
def instZ : Inst := { typeId := 0, hasErrors := false, enabled := false }

/-- A state in which `B` is already cached. -/
def stBCached : MState := { loaded := [(1, instB)], log := [1], ranMain := [1] }

/-- A state in which `D` is already cached, with errors. -/
def stDCached : MState := { loaded := [(2, instD)], log := [2], ranMain := [2] }

/-- A state in which `Z` is already cached. -/
def stZCached : MState := { loaded := [(0, instZ)], log := [], ranMain := [] }

/-- The state after running `Z` directly from `stZCached`: a fresh
construction of `Z` was logged even though `Z` was cached. -/
def stZDone : MState := { loaded := [(0, instZ)], log := [0], ranMain := [] }

/-! ## Theorems settling the claims -/

/-- The fold over declared kwargs leaves attributes whose name is not
declared untouched. -/
theorem declaredFold_apply_of_not_mem (supplied : List (String × PyVal)) :
    ∀ (l : List PKwarg) (a : String → Option PyVal) (n : String),
      n ∉ l.map PKwarg.name →
      (l.foldl (fun a kw =>
          setAttr a kw.name ((supplied.lookup kw.name).getD kw.default)) a) n = a n := by
  intro l
  induction l with
  | nil => intro a n _; rfl
  | cons x xs ih =>
    intro a n hn
    simp only [List.map_cons, List.mem_cons, not_or] at hn
    simp only [List.foldl_cons]
    rw [ih _ n hn.2, setAttr, if_neg hn.1]

/-- The fold over declared kwargs assigns each declared name the supplied
value when present, else the declared default (names assumed distinct, as
dict keys and `KWARGS` names are). -/
theorem declaredFold_apply_of_mem (supplied : List (String × PyVal)) :
    ∀ (l : List PKwarg) (a : String → Option PyVal) (kw : PKwarg),
      kw ∈ l → (l.map PKwarg.name).Nodup →
      (l.foldl (fun a kw =>
          setAttr a kw.name ((supplied.lookup kw.name).getD kw.default)) a) kw.name
        = some ((supplied.lookup kw.name).getD kw.default) := by
  intro l
  induction l with
  | nil => intro a kw h; exact absurd h (List.not_mem_nil kw)
  | cons x xs ih =>
    intro a kw hmem hnd
    simp only [List.map_cons, List.nodup_cons] at hnd
    simp only [List.foldl_cons]
    rcases List.mem_cons.mp hmem with rfl | hxs
    · rw [declaredFold_apply_of_not_mem supplied xs _ _ hnd.1]
      simp [setAttr]
    · exact ih _ kw hxs hnd.2

/-- The fold over supplied kwargs never overwrites an attribute that is
already present. -/
theorem suppliedFold_apply_of_isSome :
    ∀ (l : List (String × PyVal)) (a : String → Option PyVal) (n : String),
      (a n).isSome →
      (l.foldl (fun a p => if (a p.1).isSome then a else setAttr a p.1 p.2) a) n = a n := by
  intro l
  induction l with
  | nil => intro a n _; rfl
  | cons p ps ih =>
    intro a n hn
    simp only [List.foldl_cons]
    by_cases hp : (a p.1).isSome
    · rw [if_pos hp]; exact ih a n hn
    · rw [if_neg hp]
      have hne : n ≠ p.1 := fun h => hp (h ▸ hn)
      have h1 : setAttr a p.1 p.2 n = a n := by rw [setAttr, if_neg hne]
      rw [ih _ n (h1 ▸ hn), h1]

/-- The fold over supplied kwargs leaves names not supplied untouched. -/
theorem suppliedFold_apply_of_not_mem :
    ∀ (l : List (String × PyVal)) (a : String → Option PyVal) (n : String),
      n ∉ l.map Prod.fst →
      (l.foldl (fun a p => if (a p.1).isSome then a else setAttr a p.1 p.2) a) n = a n := by
  intro l
  induction l with
  | nil => intro a n _; rfl
  | cons p ps ih =>
    intro a n hn
    simp only [List.map_cons, List.mem_cons, not_or] at hn
    simp only [List.foldl_cons]
    by_cases hp : (a p.1).isSome
    · rw [if_pos hp]; exact ih a n hn.2
    · rw [if_neg hp]
      rw [ih _ n hn.2, setAttr, if_neg hn.1]

/-- The fold over supplied kwargs attaches a supplied pair whose key is not
yet an attribute (supplied keys assumed distinct, as Python dict keys are). -/
theorem suppliedFold_apply_attached :
    ∀ (l : List (String × PyVal)) (a : String → Option PyVal) (k : String) (v : PyVal),
      (k, v) ∈ l → (l.map Prod.fst).Nodup → a k = Option.none →
      (l.foldl (fun a p => if (a p.1).isSome then a else setAttr a p.1 p.2) a) k
        = some v := by
  intro l
  induction l with
  | nil => intro a k v h; exact absurd h (List.not_mem_nil (k, v))
  | cons p ps ih =>
    intro a k v hmem hnd hk
    simp only [List.map_cons, List.nodup_cons] at hnd
    simp only [List.foldl_cons]
    rcases List.mem_cons.mp hmem with rfl | hps
    · rw [if_neg (by simp [hk])]
      rw [suppliedFold_apply_of_not_mem ps _ _ hnd.1]
      simp [setAttr]
    · have hne : p.1 ≠ k := by
        intro h
        exact hnd.1 (h ▸ List.mem_map_of_mem Prod.fst hps)
      by_cases hp : (a p.1).isSome
      · rw [if_pos hp]; exact ih a k v hps hnd.2 hk
      · rw [if_neg hp]
        refine ih _ k v hps hnd.2 ?_
        rw [setAttr, if_neg (Ne.symm hne)]
        exact hk

/-- C7 (amended): for every module construction processed by
`Modules.kwargs`, each name declared in the module's `KWARGS` list is
assigned either the supplied value or the declared default; a supplied
keyword whose name is neither declared in `KWARGS` nor already an attribute
of the instance is attached verbatim; but a supplied undeclared keyword
whose name collides with an existing attribute (instance attribute, class
attribute or method) is silently ignored, the existing attribute being kept. -/
theorem kwargs_declared_set_fresh_attached :
    ∀ (declared : List PKwarg) (supplied : List (String × PyVal))
      (attrs : String → Option PyVal),
      (declared.map PKwarg.name).Nodup → (supplied.map Prod.fst).Nodup →
      (∀ kw ∈ declared, modKwargs declared supplied attrs kw.name
          = some ((supplied.lookup kw.name).getD kw.default))
      ∧ (∀ k v, (k, v) ∈ supplied → k ∉ declared.map PKwarg.name →
          attrs k = Option.none → modKwargs declared supplied attrs k = some v)
      ∧ (∀ k, k ∉ declared.map PKwarg.name → (attrs k).isSome →
          modKwargs declared supplied attrs k = attrs k) := by
  intro declared supplied attrs hnd hns
  unfold modKwargs
  refine ⟨fun kw hkw => ?_, fun k v hkv hknd hka => ?_, fun k hknd hka => ?_⟩
  · rw [suppliedFold_apply_of_isSome _ _ _ (by
      rw [declaredFold_apply_of_mem supplied declared attrs kw hkw hnd]; rfl)]
    exact declaredFold_apply_of_mem supplied declared attrs kw hkw hnd
  · exact suppliedFold_apply_attached supplied _ k v hkv hns
      (by rw [declaredFold_apply_of_not_mem supplied declared attrs k hknd]; exact hka)
  · have h1 := declaredFold_apply_of_not_mem supplied declared attrs k hknd
    rw [suppliedFold_apply_of_isSome _ _ _ (by rw [h1]; exact hka), h1]

/-- Witness for C7's amended theorem at a concrete module: one declared
kwarg `offset` (default 0, supplied 8), one fresh supplied kwarg, one
supplied kwarg shadowed by the existing `name` attribute. -/
theorem kwargs_declared_set_fresh_attached_witness :
    modKwargs [⟨"offset", .int 0⟩] [("offset", .int 8), ("magic", .str "m"), ("name", .str "x")]
        deflateBaseAttrs "offset" = some (.int 8)
    ∧ modKwargs [⟨"offset", .int 0⟩] [("offset", .int 8), ("magic", .str "m"), ("name", .str "x")]
        deflateBaseAttrs "magic" = some (.str "m")
    ∧ modKwargs [⟨"offset", .int 0⟩] [("offset", .int 8), ("magic", .str "m"), ("name", .str "x")]
        deflateBaseAttrs "name" = deflateBaseAttrs "name" := by
  have h := kwargs_declared_set_fresh_attached [⟨"offset", .int 0⟩]
    [("offset", .int 8), ("magic", .str "m"), ("name", .str "x")]
    deflateBaseAttrs (by simp) (by simp)
  refine ⟨?_, ?_, ?_⟩
  · exact h.1 ⟨"offset", .int 0⟩ (by simp)
  · exact h.2.1 "magic" (.str "m") (by simp) (by simp) rfl
  · exact h.2.2 "name" (by simp) (by rfl)

/-- C7 counterexample: the claim as stated says every supplied keyword whose
name is not declared in `KWARGS` is attached verbatim as an instance
attribute; but supplying `name="custom"` to a module with empty `KWARGS`
leaves the pre-existing `name` attribute (set by `Module.__init__` before
`process_kwargs`) untouched, because the attach is guarded by
`not hasattr(module, k)`. -/
theorem kwargs_shadowed_supplied_not_attached :
    ("name" ∉ ([] : List PKwarg).map PKwarg.name)
    ∧ modKwargs [] [("name", .str "custom")] deflateBaseAttrs "name"
        = some (.str "Deflate")
    ∧ modKwargs [] [("name", .str "custom")] deflateBaseAttrs "name"
        ≠ some (.str "custom") := by
  have he : modKwargs [] [("name", .str "custom")] deflateBaseAttrs "name"
      = some (.str "Deflate") := rfl
  refine ⟨by simp, he, ?_⟩
  rw [he]
  intro h
  injection h with h1
  injection h1 with h2
  exact absurd h2 (by decide)

/-- C9: in `Modules.argv`, a supplied value for an option whose accepted
kind is integer is parsed with `int(value, 0)` (automatic base detection):
the command-line text "0x1A" parses to 26 and is stored as the numeric
value 26 under the option's target key. -/
theorem int_option_hex_autodetect :
    pyIntBase0 "0x1A" = some 26
    ∧ (moduleArgv [⟨[("offset", .none)], 10, "offset", .tInt⟩]
          (fun s => if s = "offset" then some (.str "0x1A") else Option.none)
          []).map (fun d => assocGet d "offset")
        = some (some (.int 26)) :=
  ⟨rfl, rfl⟩

/-- C2 counterexample: two OptionSpecs with the same priority (10) in a
module's CLI both target the key `k` and both are supplied (`v1` first,
`v2` second).  The claim as stated says ties keep the first writer's value
`v1`; the code's check `last_priority[name] <= module_option.priority` lets
the equal-priority later option overwrite, so the key ends with `v2`. -/
theorem equal_priority_second_writer_wins :
    (moduleArgv
        [⟨[("k", .none)], 10, "oa", .tStr⟩, ⟨[("k", .none)], 10, "ob", .tStr⟩]
        (fun s => if s = "oa" then some (.str "v1")
                  else if s = "ob" then some (.str "v2") else Option.none)
        []).map (fun d => assocGet d "k")
      = some (some (.str "v2"))
    ∧ some (some (PyVal.str "v2")) ≠ some (some (PyVal.str "v1")) := by
  refine ⟨rfl, ?_⟩
  intro h
  injection h with h1
  injection h1 with h2
  injection h2 with h3
  exact absurd h3 (by decide)

/-- C2 (amended): within the requesting module's own CLI list (only those
entries are consulted by `Modules.argv` for that module), when two
OptionSpecs target the same constructor key and both are supplied, the key
receives the value from the option with the strictly higher priority
regardless of declaration order; when the two priorities are equal the
later-processed option's value overwrites the earlier one's (the second
write wins the tie). -/
theorem priority_higher_wins_ties_last (p1 p2 : Int) (v1 v2 : String) :
    (moduleArgv
        [⟨[("k", .none)], p1, "oa", .tStr⟩, ⟨[("k", .none)], p2, "ob", .tStr⟩]
        (fun s => if s = "oa" then some (.str v1)
                  else if s = "ob" then some (.str v2) else Option.none)
        []).map (fun d => assocGet d "k")
      = some (some (.str (if p1 ≤ p2 then v2 else v1)))
    ∧ (moduleArgv
        [⟨[("k", .none)], p2, "ob", .tStr⟩, ⟨[("k", .none)], p1, "oa", .tStr⟩]
        (fun s => if s = "oa" then some (.str v1)
                  else if s = "ob" then some (.str v2) else Option.none)
        []).map (fun d => assocGet d "k")
      = some (some (.str (if p2 ≤ p1 then v1 else v2))) := by
  constructor
  · by_cases h : p1 ≤ p2 <;>
      simp [moduleArgv, processOption, assocGet, assocSet, isFalsy, h]
  · by_cases h : p2 ≤ p1 <;>
      simp [moduleArgv, processOption, assocGet, assocSet, isFalsy, h]

/-- Folding the default (no-op) dependency callbacks over a result leaves
it unchanged. -/
theorem foldl_defaultCallback (k : Nat) (r : PResult) :
    (List.replicate k defaultCallback).foldl (fun r f => f r) r = r := by
  induction k with
  | zero => rfl
  | succ n ih => simpa [List.replicate_succ, defaultCallback] using ih

/-- The automatic status update never touches the stored results. -/
theorem statusAutoUpdate_results (st : ResState) (r : PResult) :
    (statusAutoUpdate st r).results = st.results := by
  cases hr : r.rfile <;>
    simp [statusAutoUpdate, hr, apply_ite ResState.results]

/-- The automatic status update never touches the display log. -/
theorem statusAutoUpdate_displayed (st : ResState) (r : PResult) :
    (statusAutoUpdate st r).displayed = st.displayed := by
  cases hr : r.rfile <;>
    simp [statusAutoUpdate, hr, apply_ite ResState.displayed]

/-- C3 counterexample: `validate` (an overriding implementation) sets the
Result's valid flag to false, but a dependency callback later in the chain
sets it back to true; the Result IS appended to the module's results and IS
forwarded to the display collaborator, contradicting the claim that a
Result invalidated by `validate` or any dependency callback is neither
stored nor displayed. -/
theorem invalidated_result_still_stored :
    (rejectValidate sampleResult).valid = false
    ∧ moduleResult rejectValidate [revalidateCallback] defaultCallback
        ["offset", "description"] emptyResState sampleResult
      = some { results := [sampleResult],
               status := { total := 0, completed := 0 },
               displayed := [[.vInt 0, .vStr "gzip"]] }
    ∧ ({ results := [sampleResult],
         status := { total := 0, completed := 0 },
         displayed := [[AttrVal.vInt 0, AttrVal.vStr "gzip"]] } : ResState).results
        ≠ ([] : List PResult) := by
  refine ⟨rfl, rfl, by simp⟩

/-- C3 (amended): for every Result submitted through `Module.result`, if
the valid flag is false after `validate`, every dependency callback and the
plugin per-result callback have all run, then the Result is neither
appended to the module's results nor forwarded to the display collaborator
(the whole state is unchanged); the callback chain is never
short-circuited: when the final flag is true, the Result that is stored is
the one produced by the complete chain (`validate`, then every dependency
callback in `DEPENDS` order, then the plugin callback). -/
theorem final_invalid_blocks_storage_and_display
    (validateF : PResult → PResult) (depcbs : List (PResult → PResult))
    (plugincb : PResult → PResult) (names : List String)
    (st : ResState) (r0 : PResult) :
    ((plugincb (depcbs.foldl (fun r f => f r) (validateF r0))).valid = false →
      moduleResult validateF depcbs plugincb names st r0 = some st)
    ∧ ((plugincb (depcbs.foldl (fun r f => f r) (validateF r0))).valid = true →
      (moduleResult validateF depcbs plugincb ["offset", "description"] st r0).map
          ResState.results
        = some (st.results
            ++ [plugincb (depcbs.foldl (fun r f => f r) (validateF r0))])) := by
  constructor
  · intro h
    simp only [moduleResult, h]
    simp
  · intro h
    have hb : ∀ r : PResult, buildDisplayArgs ["offset", "description"] r
        = some [.vInt r.offset, .vStr r.description] := fun _ => rfl
    simp only [moduleResult, h, if_true]
    by_cases hd : (plugincb (depcbs.foldl (fun r f => f r) (validateF r0))).display
    · simp [hd, hb, statusAutoUpdate_results]
    · simp [hd, statusAutoUpdate_results]

/-- Witness for C3's amended theorem: with a rejecting `validate` and no
dependency callbacks the state is unchanged; with the default `validate`
the stored result is the one produced by the full chain. -/
theorem final_invalid_blocks_storage_and_display_witness :
    moduleResult rejectValidate [] defaultCallback ["offset"] emptyResState
        sampleResult = some emptyResState
    ∧ (moduleResult defaultValidate [] defaultCallback ["offset", "description"]
          emptyResState sampleResult).map ResState.results
        = some (emptyResState.results
            ++ [defaultCallback (([] : List (PResult → PResult)).foldl
                  (fun r f => f r) (defaultValidate sampleResult))]) :=
  ⟨(final_invalid_blocks_storage_and_display rejectValidate [] defaultCallback
      ["offset"] emptyResState sampleResult).1 rfl,
   (final_invalid_blocks_storage_and_display defaultValidate [] defaultCallback
      ["offset", "description"] emptyResState sampleResult).2 rfl⟩

/-- C10: under the default (non-overridden) implementations, `Module.result`
invokes `validate` before checking the valid flag, and the default
`validate` unconditionally sets `valid = True`; therefore a Result passed
with `valid` already false (and not invalidated by any of the no-op default
dependency callbacks) is nevertheless appended to `results` and, when its
display flag is true, forwarded to the display collaborator with the
default result columns (offset, description). -/
theorem default_validate_resurrects_invalid_result
    (k : Nat) (st : ResState) (r0 : PResult) :
    r0.valid = false → r0.display = true →
    (moduleResult defaultValidate (List.replicate k defaultCallback)
          defaultCallback ["offset", "description"] st r0).map ResState.results
        = some (st.results ++ [{ r0 with valid := true }])
    ∧ (moduleResult defaultValidate (List.replicate k defaultCallback)
          defaultCallback ["offset", "description"] st r0).map ResState.displayed
        = some (st.displayed ++ [[.vInt r0.offset, .vStr r0.description]]) := by
  intro _ hdisp
  have hb : ∀ r : PResult, buildDisplayArgs ["offset", "description"] r
      = some [.vInt r.offset, .vStr r.description] := fun _ => rfl
  simp only [moduleResult]
  rw [foldl_defaultCallback k (defaultValidate r0)]
  constructor <;>
    simp [defaultValidate, defaultCallback, hdisp, hb,
      statusAutoUpdate_results, statusAutoUpdate_displayed]

/-- Witness for C10's theorem at a concrete invalid-but-displayable
result. -/
theorem default_validate_resurrects_invalid_result_witness :
    ({ sampleResult with valid := false } : PResult).valid = false
    ∧ ({ sampleResult with valid := false } : PResult).display = true
    ∧ (moduleResult defaultValidate (List.replicate 2 defaultCallback)
          defaultCallback ["offset", "description"] emptyResState
          { sampleResult with valid := false }).map ResState.results
        = some (emptyResState.results
            ++ [{ ({ sampleResult with valid := false } : PResult) with valid := true }]) :=
  ⟨rfl, rfl,
    (default_validate_resurrects_invalid_result 2 emptyResState
      { sampleResult with valid := false } rfl rfl).1⟩

/-- C6: the cancellation interrupt (`KeyboardInterrupt`) raised inside
`load`, `init`, the display set-up, or `run` propagates unmodified out of
every catch boundary in `Module.__init__` and `Module.main` and is never
wrapped into a recorded `Error` (the error list is unchanged), while every
other exception raised in those phases is caught, wrapped into an `Error`
with the exception attached, and appended to the module's error list. -/
theorem kbInterrupt_propagates_others_recorded :
    ∀ (errs : List PyExc) (t : Nat) (fmtRes : PhaseOut Unit) (runRes : PhaseOut Bool),
      moduleCtor errs (.raised .kbInterrupt) = (errs, .raised .kbInterrupt)
      ∧ moduleCtor errs (.raised (.err t)) = (errs ++ [.err t], .made)
      ∧ moduleMain errs (.raised .kbInterrupt) fmtRes runRes = (errs, .raised .kbInterrupt)
      ∧ moduleMain errs (.ret ()) (.raised .kbInterrupt) runRes = (errs, .raised .kbInterrupt)
      ∧ moduleMain errs (.ret ()) (.ret ()) (.raised .kbInterrupt) = (errs, .raised .kbInterrupt)
      ∧ moduleMain errs (.raised (.err t)) fmtRes runRes = (errs ++ [.err t], .returned false)
      ∧ moduleMain errs (.ret ()) (.raised (.err t)) runRes = (errs ++ [.err t], .returned false)
      ∧ moduleMain errs (.ret ()) (.ret ()) (.raised (.err t)) = (errs ++ [.err t], .returned false) :=
  fun _ _ _ _ => ⟨rfl, rfl, rfl, rfl, rfl, rfl, rfl, rfl⟩

/-- C8: if `init` raises a non-cancellation exception during `Module.main`,
the exception is caught and recorded as an `Error`, and `main` returns
failure (`False`) immediately; the outcome is the same for every possible
behaviour of the later phases, so `run` is never consulted. -/
theorem init_failure_returns_false_without_run :
    ∀ (errs : List PyExc) (t : Nat) (fmtRes : PhaseOut Unit) (runRes : PhaseOut Bool),
      moduleMain errs (.raised (.err t)) fmtRes runRes = (errs ++ [.err t], .returned false) :=
  fun _ _ _ _ => rfl

/-- The cache-or-run step only appends to the construction log, provided
the runner does. -/
theorem ensureLoaded_log_extend
    (runner : MState → ModType → Except (MErr × MState) (MState × Inst))
    (hr : ∀ s t, ∃ ext, (resState (runner s t)).log = s.log ++ ext)
    (s : MState) (dm : ModType) :
    ∃ ext, (resStateE (ensureLoaded runner s dm)).log = s.log ++ ext := by
  unfold ensureLoaded
  by_cases hc : (lookupLoaded s dm.id).isSome
  · rw [if_pos hc]; exact ⟨[], by simp [resStateE]⟩
  · rw [if_neg hc]
    obtain ⟨ext, hext⟩ := hr s dm
    cases hrun : runner s dm with
    | error e =>
      rw [hrun] at hext
      exact ⟨ext, by simpa [resState, resStateE] using hext⟩
    | ok v =>
      obtain ⟨s1, i⟩ := v
      rw [hrun] at hext
      exact ⟨ext, by simpa [resState, resStateE] using hext⟩

/-- Dependency resolution only appends to the construction log, whatever
its outcome, provided the runner it recurses through does. -/
theorem depsGo_log_extend (env : List ModType)
    (runner : MState → ModType → Except (MErr × MState) (MState × Inst))
    (hr : ∀ s t, ∃ ext, (resState (runner s t)).log = s.log ++ ext)
    (t : ModType) :
    ∀ (entries : List (String × String)) (s : MState),
      ∃ ext, (resState (depsGo env runner t s entries)).log = s.log ++ ext := by
  intro entries
  induction entries with
  | nil => intro s; exact ⟨[], by simp [depsGo, resState]⟩
  | cons p rest ih =>
    intro s
    obtain ⟨kw, dname⟩ := p
    simp only [depsGo]
    split
    · exact ih s
    · split
      · exact ih s
      · rename_i dm hl hid
        split
        · rename_i e hel
          obtain ⟨extE, hextE⟩ := ensureLoaded_log_extend runner hr s dm
          rw [hel] at hextE
          simp only [resStateE] at hextE
          exact ⟨extE, by simpa [resState] using hextE⟩
        · rename_i s1 hel
          obtain ⟨extE, hextE⟩ := ensureLoaded_log_extend runner hr s dm
          rw [hel] at hextE
          simp only [resStateE] at hextE
          split
          · exact ⟨extE, by simpa [resState] using hextE⟩
          · rename_i inst hl1
            split
            · exact ⟨extE, by simpa [resState] using hextE⟩
            · obtain ⟨ext2, hext2⟩ := ih s1
              split
              · rename_i e hgo
                rw [hgo] at hext2
                simp only [resState] at hext2 ⊢
                exact ⟨extE ++ ext2, by rw [hext2, hextE, List.append_assoc]⟩
              · rename_i s2 b2 hgo
                rw [hgo] at hext2
                simp only [resState] at hext2 ⊢
                exact ⟨extE ++ ext2, by rw [hext2, hextE, List.append_assoc]⟩

/-- Loading a module only appends to the construction log (namely the
dependency constructions followed by the module's own), provided the
runner does. -/
theorem loadM_log_extend (env : List ModType)
    (runner : MState → ModType → Except (MErr × MState) (MState × Inst))
    (hr : ∀ s t, ∃ ext, (resState (runner s t)).log = s.log ++ ext)
    (s : MState) (t : ModType) :
    ∃ ext, (resState (loadM env runner s t)).log = s.log ++ ext := by
  unfold loadM
  obtain ⟨ext, hext⟩ := depsGo_log_extend env runner hr t t.depends s
  split
  · rename_i e hgo
    rw [hgo] at hext
    simp only [resState] at hext ⊢
    exact ⟨ext, hext⟩
  · rename_i s1 binds hgo
    rw [hgo] at hext
    simp only [resState] at hext ⊢
    exact ⟨ext ++ [t.id], by rw [hext, List.append_assoc]⟩

/-- Running a module only appends to the construction log, whatever the
outcome. -/
theorem runM_log_extend (env : List ModType) :
    ∀ (fuel : Nat) (s : MState) (t : ModType),
      ∃ ext, (resState (runM env fuel s t)).log = s.log ++ ext := by
  intro fuel
  induction fuel with
  | zero => intro s t; exact ⟨[], by simp [runM, resState]⟩
  | succ n ih =>
    intro s t
    simp only [runM]
    obtain ⟨ext, hext⟩ := loadM_log_extend env (runM env n) ih s t
    split
    · rename_i e hld
      rw [hld] at hext
      simp only [resState] at hext ⊢
      exact ⟨ext, hext⟩
    · rename_i s1 inst hld
      rw [hld] at hext
      simp only [resState] at hext
      refine ⟨ext, ?_⟩
      by_cases hen : inst.enabled <;> simp [resState, hen, hext]

/-- A successful `Modules.run` always ends with a fresh construction of the
requested type: the final log is the initial log, whatever the dependency
resolution appended, then the type's own construction. -/
theorem runM_ok_log (env : List ModType) (fuel : Nat) (s : MState)
    (t : ModType) (s' : MState) (i : Inst)
    (h : runM env fuel s t = .ok (s', i)) :
    ∃ ext, s'.log = s.log ++ (ext ++ [t.id]) := by
  cases fuel with
  | zero => simp [runM] at h
  | succ n =>
    simp only [runM] at h
    split at h
    · exact absurd h (by simp)
    · rename_i s1 inst hld
      have hs' : s'.log = s1.log := by
        injection h with hv
        injection hv with ha hb
        rw [← ha]
        by_cases hen : inst.enabled <;> simp [hen]
      unfold loadM at hld
      split at hld
      · exact absurd hld (by simp)
      · rename_i sdeps binds hgo
        injection hld with hv
        injection hv with ha hb
        obtain ⟨ext, hext⟩ := depsGo_log_extend env (runM env n)
          (runM_log_extend env n) t t.depends s
        rw [hgo] at hext
        simp only [resState] at hext
        refine ⟨ext, ?_⟩
        rw [hs', ← ha]
        simp only [MState.log]
        rw [hext, List.append_assoc]

/-- C1 (amended): `Modules.run` never consults the module cache — every
successful run constructs a fresh instance of the requested type, even when
one is already cached (the construction count of the type strictly
increases); the cache is consulted only by `Modules.dependencies`, so when
every known dependency of a module is already cached, dependency resolution
constructs nothing at all (the construction log is unchanged, whatever the
outcome).  Consequently a module loaded as another module's dependency is
not re-constructed when resolved again as a dependency, but it IS
constructed a second time when later run directly by the execute sweep. -/
theorem run_always_constructs_cache_only_for_deps :
    (∀ (env : List ModType) (fuel : Nat) (s : MState) (t : ModType)
        (s' : MState) (i : Inst),
      runM env fuel s t = .ok (s', i) →
      s.log.count t.id + 1 ≤ s'.log.count t.id)
    ∧ (∀ (env : List ModType)
        (runner : MState → ModType → Except (MErr × MState) (MState × Inst))
        (t : ModType) (entries : List (String × String)) (s : MState),
      (∀ kw dn dm, (kw, dn) ∈ entries → lookupName env dn = some dm →
        (lookupLoaded s dm.id).isSome) →
      (resState (depsGo env runner t s entries)).log = s.log) := by
  constructor
  · intro env fuel s t s' i h
    obtain ⟨ext, hext⟩ := runM_ok_log env fuel s t s' i h
    rw [hext]
    simp [List.count_append]
  · intro env runner t entries
    induction entries with
    | nil => intro s _; simp [depsGo, resState]
    | cons p rest ih =>
      intro s hc
      obtain ⟨kw, dname⟩ := p
      simp only [depsGo]
      split
      · exact ih s (fun kw' dn' dm' hm hl => hc kw' dn' dm' (List.mem_cons_of_mem _ hm) hl)
      · split
        · exact ih s (fun kw' dn' dm' hm hl => hc kw' dn' dm' (List.mem_cons_of_mem _ hm) hl)
        · rename_i dm hl hid
          have hcs : (lookupLoaded s dm.id).isSome :=
            hc kw dname dm (List.mem_cons_self _ _) hl
          have hel : ensureLoaded runner s dm = .ok s := by
            unfold ensureLoaded; rw [if_pos hcs]
          split
          · rename_i e hel2
            rw [hel] at hel2
            exact absurd hel2 (by simp)
          · rename_i s1 hel2
            rw [hel] at hel2
            injection hel2 with hs1
            subst hs1
            split
            · rename_i hln
              rw [hln] at hcs
              exact absurd hcs (by simp)
            · rename_i inst hli
              split
              · simp [resState]
              · have hrec := ih s
                  (fun kw' dn' dm' hm hl => hc kw' dn' dm' (List.mem_cons_of_mem _ hm) hl)
                split
                · rename_i e hgo
                  rw [hgo] at hrec
                  simpa [resState] using hrec
                · rename_i s2 b2 hgo
                  rw [hgo] at hrec
                  simpa [resState] using hrec

/-- Witness for C1's amended theorem: running the already-cached type `Z`
still constructs it anew (its construction count goes from 0 to 1), and
resolving `A`'s dependency on the already-cached `B` leaves the
construction log untouched. -/
theorem run_always_constructs_cache_only_for_deps_witness :
    stZCached.log.count tZ.id + 1 ≤ stZDone.log.count tZ.id
    ∧ (resState (depsGo envTwo (runM envTwo 0) tA stBCached [("b", "B")])).log
        = stBCached.log :=
  ⟨run_always_constructs_cache_only_for_deps.1 [tZ] 1 stZCached tZ stZDone instZ rfl,
   run_always_constructs_cache_only_for_deps.2 envTwo (runM envTwo 0) tA
     [("b", "B")] stBCached (by
       intro kw dn dm hm hl
       rw [List.mem_singleton] at hm
       cases hm
       have hlB : lookupName envTwo "B" = some tB := rfl
       rw [hlB] at hl
       injection hl with hdm
       subst hdm
       rfl)⟩

/-- C1 counterexample: in `envTwo` (`A` depends on `B`, sweep order `A`
then `B`), the execute sweep first runs `A` — constructing `B` as a
dependency and caching it — and then runs `B` directly; `Modules.run` calls
`Modules.load` unconditionally instead of returning the cached instance, so
`B` is constructed a second time: its id occurs twice in the construction
log of the very same execute call, on an acyclic dependency graph. -/
theorem dependency_reconstructed_when_run_directly :
    errKind (executeM envTwo 5 mInit) = Option.none
    ∧ (resState (executeM envTwo 5 mInit)).log = [1, 0, 1]
    ∧ ((resState (executeM envTwo 5 mInit)).log.count 1) = 2 :=
  ⟨rfl, rfl, rfl⟩

/-- C4: during `Modules.dependencies`, a resolved dependency instance that
carries recorded errors makes resolution raise `DependencyError` before any
kwargs reach the constructor: (1) whenever resolution returns normally,
every bound dependency instance is error-free; (2) a cached dependency with
errors makes the resolution of its entry raise immediately, with the state
unchanged and nothing bound; (3) a resolution failure propagates through
`Modules.load`, which returns the same error — since `load` invokes the
module constructor only after `dependencies` returns, the dependent module
is never constructed. -/
theorem dependency_errors_are_fatal :
    (∀ (env : List ModType)
        (runner : MState → ModType → Except (MErr × MState) (MState × Inst))
        (t : ModType) (entries : List (String × String)) (s s' : MState)
        (binds : List (String × Inst)),
      depsGo env runner t s entries = .ok (s', binds) →
      ∀ kw inst, (kw, inst) ∈ binds → inst.hasErrors = false)
    ∧ (∀ (env : List ModType)
        (runner : MState → ModType → Except (MErr × MState) (MState × Inst))
        (t : ModType) (s : MState) (kw dname : String)
        (rest : List (String × String)) (dm : ModType) (inst : Inst),
      lookupName env dname = some dm → dm.id ≠ t.id →
      lookupLoaded s dm.id = some inst → inst.hasErrors = true →
      depsGo env runner t s ((kw, dname) :: rest) = .error (.depError, s))
    ∧ (∀ (env : List ModType)
        (runner : MState → ModType → Except (MErr × MState) (MState × Inst))
        (s : MState) (t : ModType) (e : MErr × MState),
      depsGo env runner t s t.depends = .error e →
      loadM env runner s t = .error e) := by
  refine ⟨?_, ?_, ?_⟩
  · intro env runner t entries
    induction entries with
    | nil =>
      intro s s' binds h kw0 inst0 hmem
      simp only [depsGo] at h
      injection h with hv
      injection hv with h1 h2
      rw [← h2] at hmem
      exact absurd hmem (List.not_mem_nil _)
    | cons p rest ih =>
      intro s s' binds h kw0 inst0 hmem
      obtain ⟨kw, dname⟩ := p
      simp only [depsGo] at h
      split at h
      · exact ih s s' binds h kw0 inst0 hmem
      · split at h
        · exact ih s s' binds h kw0 inst0 hmem
        · split at h
          · exact absurd h (by simp)
          · rename_i s1 hel
            split at h
            · exact absurd h (by simp)
            · rename_i inst hli
              split at h
              · exact absurd h (by simp)
              · rename_i he
                split at h
                · exact absurd h (by simp)
                · rename_i s2 b2 hgo
                  injection h with hv
                  injection hv with h1 h2
                  rw [← h2] at hmem
                  rcases List.mem_cons.mp hmem with heq | hmem2
                  · injection heq with hk hi
                    rw [hi]
                    simp only [Bool.not_eq_true] at he
                    exact he
                  · exact ih s1 s2 b2 hgo kw0 inst0 hmem2
  · intro env runner t s kw dname rest dm inst hl hid hcach herr
    have hcs : (lookupLoaded s dm.id).isSome := by rw [hcach]; rfl
    have hel : ensureLoaded runner s dm = .ok s := by
      unfold ensureLoaded; rw [if_pos hcs]
    simp only [depsGo]
    split
    · rename_i hln
      rw [hl] at hln
      exact absurd hln (by simp)
    · rename_i dm' hl'
      rw [hl] at hl'
      injection hl' with hdm
      subst hdm
      split
      · rename_i hid2
        exact absurd hid2 hid
      · split
        · rename_i e hel2
          rw [hel] at hel2
          exact absurd hel2 (by simp)
        · rename_i s1 hel2
          rw [hel] at hel2
          injection hel2 with hs1
          subst hs1
          split
          · rename_i hln2
            rw [hcach] at hln2
            exact absurd hln2 (by simp)
          · rename_i inst' hli
            rw [hcach] at hli
            injection hli with hinst
            subst hinst
            split
            · rfl
            · rename_i he
              exact absurd herr he
  · intro env runner s t e h
    unfold loadM
    split
    · rename_i e' hgo
      rw [h] at hgo
      injection hgo with he
      rw [← he]
    · rename_i s1 binds hgo
      rw [h] at hgo
      exact absurd hgo (by simp)

/-- Witness for C4's theorem: the dependency instance bound by a
successful resolution is error-free; a cached errored `D` makes `A`'s
resolution raise `DependencyError` with the state unchanged; and `load` of
`A` fails with the same error without constructing `A`. -/
theorem dependency_errors_are_fatal_witness :
    instB.hasErrors = false
    ∧ depsGo envDepFail (runM envDepFail 0) tAD stDCached [("d", "D")]
        = .error (.depError, stDCached)
    ∧ loadM envDepFail (runM envDepFail 1) stDCached tAD
        = .error (.depError, stDCached) :=
  ⟨dependency_errors_are_fatal.1 envTwo (runM envTwo 0) tA [("b", "B")]
      stBCached stBCached [("b", instB)] rfl "b" instB (by simp),
   dependency_errors_are_fatal.2.1 envDepFail (runM envDepFail 0) tAD
      stDCached "d" "D" [] tD instD rfl (by decide) rfl rfl,
   dependency_errors_are_fatal.2.2 envDepFail (runM envDepFail 1) stDCached
      tAD (.depError, stDCached) rfl⟩

/-- C5 (amended): a dependency failure raised while loading one module
during the `Modules.execute` sweep propagates out of `Modules.run` and out
of `execute`, which has no handler around `self.run`: the entire sweep
aborts with that error, so the modules after the failing one in the sweep —
whether they depend on the failed dependency or not — are not loaded and
not driven through their lifecycle; only the modules before it were
processed.  The scan does not continue across a dependency failure (it does
continue across errors that are merely recorded). -/
theorem dependency_failure_aborts_sweep :
    (∀ (env : List ModType) (fuel : Nat) (s0 : MState) (pre : List ModType)
        (bad : ModType) (post : List ModType) (s1 : MState)
        (e : MErr × MState),
      sweepM env fuel s0 pre = .ok s1 →
      runM env fuel s1 bad = .error e →
      sweepM env fuel s0 (pre ++ bad :: post) = .error e)
    ∧ (∀ (env : List ModType) (fuel : Nat) (s : MState) (e : MErr × MState),
      sweepM env fuel s env = .error e → executeM env fuel s = .error e) := by
  constructor
  · intro env fuel s0 pre
    induction pre generalizing s0 with
    | nil =>
      intro bad post s1 e h0 hbad
      simp only [sweepM] at h0
      injection h0 with hs
      subst hs
      simp only [List.nil_append, sweepM]
      rw [hbad]
    | cons t pre' ih =>
      intro bad post s1 e h0 hbad
      simp only [sweepM] at h0
      split at h0
      · exact absurd h0 (by simp)
      · rename_i s' i hrun
        simp only [List.cons_append, sweepM]
        split
        · rename_i e2 hrun2
          rw [hrun] at hrun2
          exact absurd hrun2 (by simp)
        · rename_i s'' i2 hrun2
          rw [hrun] at hrun2
          injection hrun2 with hv
          injection hv with h1 h2
          subst h1
          exact ih s' bad post s1 e h0 hbad
  · intro env fuel s e h
    unfold executeM
    split
    · rename_i e' hsw
      rw [h] at hsw
      injection hsw with he
      rw [← he]
    · rename_i s' hsw
      rw [h] at hsw
      exact absurd hsw (by simp)

/-- Witness for C5's amended theorem at the concrete failure scenario:
the sweep over `envDepFail` with empty prefix aborts with the
`DependencyError` raised while running `A`, and so does `execute`. -/
theorem dependency_failure_aborts_sweep_witness :
    sweepM envDepFail 5 mInit ([] ++ tAD :: [tC, tD])
        = .error (.depError, stDCached)
    ∧ executeM envDepFail 5 mInit = .error (.depError, stDCached) :=
  ⟨dependency_failure_aborts_sweep.1 envDepFail 5 mInit [] tAD [tC, tD]
      mInit (.depError, stDCached) rfl rfl,
   dependency_failure_aborts_sweep.2 envDepFail 5 mInit
      (.depError, stDCached) rfl⟩

/-- C5 counterexample: in `envDepFail` (sweep order `A`, `C`, `D`; `A`
depends on `D`, whose `load` fails; `C` is unrelated), the
`DependencyError` raised while loading `A` propagates out of
`Modules.execute`: the call aborts, only `D` was ever constructed and
driven, and the unrelated module `C` (id 1) is never constructed nor driven
through its lifecycle by this execute call — contradicting the claim that
modules unrelated to the failed dependency are still driven by the same
execute call. -/
theorem execute_aborts_unrelated_module_never_driven :
    errKind (executeM envDepFail 5 mInit) = some .depError
    ∧ (resState (executeM envDepFail 5 mInit)).log = [2]
    ∧ (resState (executeM envDepFail 5 mInit)).ranMain = [2]
    ∧ tC.id ∉ (resState (executeM envDepFail 5 mInit)).log
    ∧ tC.id ∉ (resState (executeM envDepFail 5 mInit)).ranMain :=
  ⟨rfl, rfl, rfl, by decide, by decide⟩

end Binwalk
